import Mathlib

/-!
Verification development for the youtube-download HTTP service.

The definitions below are shallow embeddings of the Python source:
- `src/app.py`: the `rate_limit` decorator, the HTTP handlers
  (`get_video_info`, `download_video`, `download_file`, `list_downloads`,
  `clear_downloads`, `delete_file`);
- `src/utils.py`: `retry_with_backoff` and the yt-dlp options builders.

Time stamps and delays are modelled as rationals, file contents as lists of
bytes, Python strings as `List Char`.  Exceptions are modelled with `Except`,
HTTP responses as records carrying the status code and the observable
side effects relevant to the verified properties.
-/

namespace YtDl

/-! ## Rate limiter (src/app.py lines 36-63)

`rate_limit_storage[client_ip]` is a deque of timestamps, oldest first.
The decorator pops from the left while the head is older than `now - 60`,
rejects with 429 when `limit` timestamps remain, and otherwise appends `now`
and runs the wrapped handler. -/

/-- The `while rate_limit_storage[ip] and rate_limit_storage[ip][0] < minute_ago:
popleft()` loop: drop leading timestamps strictly older than `minuteAgo`. -/
def pruneDeque (minuteAgo : ℚ) : List ℚ → List ℚ
  | [] => []
  | t :: rest => if t < minuteAgo then pruneDeque minuteAgo rest else t :: rest

/-- One call of the `rate_limit(limit)` decorator at time `now` on window `w`:
returns (admitted?, new window). Mirrors lines 46-61 of src/app.py. -/
def rateLimitCheck (limit : ℕ) (now : ℚ) (w : List ℚ) : Bool × List ℚ :=
  let pruned := pruneDeque (now - 60) w
  if limit ≤ pruned.length then (false, pruned)
  else (true, pruned ++ [now])

/-- Process a sequence of request times from a starting window. -/
def processRequests (limit : ℕ) : List ℚ → List ℚ → List ℚ
  | [], w => w
  | t :: ts, w => processRequests limit ts (rateLimitCheck limit t w).2

/-! ## Retry with backoff (src/utils.py lines 105-122)

The wrapped operation is modelled as `op : ℕ → Except ε α`, where `op i` is
the outcome of its (i+1)-th invocation.  `retryGo` is the
`for attempt in range(max_retries)` loop starting at a given attempt index;
the `else` branch is the trailing `return func(...)` reached only when the
loop runs zero iterations (`max_retries = 0`). -/

def retryGo (op : ℕ → Except ε α) (maxRetries : ℕ) (attempt : ℕ) : Except ε α :=
  if attempt < maxRetries then
    match op attempt with
    | Except.ok v => Except.ok v
    | Except.error e =>
      if attempt = maxRetries - 1 then Except.error e
      else retryGo op maxRetries (attempt + 1)
  else op attempt
termination_by maxRetries - attempt
decreasing_by omega

/-- The wrapper `retry_with_backoff(max_retries, base_delay)` applied to `op` (the delay
does not affect the returned value). -/
def retry_with_backoff (op : ℕ → Except ε α) (maxRetries : ℕ) : Except ε α :=
  retryGo op maxRetries 0

/-- Number of times the wrapped operation is invoked, mirroring the control
flow of `retryGo`. -/
def retryCallsGo (op : ℕ → Except ε α) (maxRetries : ℕ) (attempt : ℕ) : ℕ :=
  if attempt < maxRetries then
    match op attempt with
    | Except.ok _ => 1
    | Except.error _ =>
      if attempt = maxRetries - 1 then 1
      else 1 + retryCallsGo op maxRetries (attempt + 1)
  else 1
termination_by maxRetries - attempt
decreasing_by omega

def retryCalls (op : ℕ → Except ε α) (maxRetries : ℕ) : ℕ :=
  retryCallsGo op maxRetries 0

/-- The delay `base_delay * (2 ** attempt) + random.uniform(0, 1)`
(src/utils.py line 117), with the jitter made explicit. -/
def backoffDelay (baseDelay : ℚ) (attempt : ℕ) (jitter : ℚ) : ℚ :=
  baseDelay * 2 ^ attempt + jitter

/-! ## Description truncation (src/app.py line 191)

`(info.get('description', '')[:500] + '...') if len(...) > 500 else ...`.
Python strings are modelled as `List Char`. -/

def truncateDescription (s : List Char) : List Char :=
  if 500 < s.length then s.take 500 ++ [Char.ofNat 46, Char.ofNat 46, Char.ofNat 46]
  else s

/-! ## Percent decoding (`urllib.parse.unquote`, used at src/app.py line 346)

`%XY` with two hex digits decodes to the byte `0x XY`; a percent sign not
followed by two hex digits is kept verbatim (single-byte / ASCII fragment of
Python's behaviour, which suffices for the filenames considered here). -/

def hexDigitVal (c : Char) : Option ℕ :=
  if c.toNat ≥ 48 ∧ c.toNat ≤ 57 then some (c.toNat - 48)
  else if c.toNat ≥ 65 ∧ c.toNat ≤ 70 then some (c.toNat - 55)
  else if c.toNat ≥ 97 ∧ c.toNat ≤ 102 then some (c.toNat - 87)
  else none

def unquote : List Char → List Char
  | [] => []
  | c :: a :: b :: rest2 =>
    if c = Char.ofNat 37 then
      match hexDigitVal a, hexDigitVal b with
      | some x, some y => Char.ofNat (16 * x + y) :: unquote rest2
      | _, _ => c :: unquote (a :: b :: rest2)
    else c :: unquote (a :: b :: rest2)
  | c :: rest => c :: unquote rest

/-! ## Shared downloads directory model

A directory maps filenames to file data; names in a real directory are
unique, so directories of interest satisfy `DirNodup`. -/

structure FileData where
  bytes : List ℕ
  mtime : ℚ
  deriving DecidableEq

/-- The shared `downloads/` directory: association list filename -> data. -/
abbrev Dir := List (List Char × FileData)

def DirNodup (d : Dir) : Prop := (d.map Prod.fst).Nodup

/-- Lookup of a filename (`os.path.exists` plus read)  in the directory. -/
def dirFind (d : Dir) (name : List Char) : Option FileData :=
  (d.find? (fun p => p.1 = name)).map Prod.snd

/-- The `f.read(4096)` loop of the streaming generators (src/app.py lines
285-292 and 352-358): split the file into chunks of at most 4096 bytes,
stopping when a read returns no data. -/
def readChunks (bytes : List ℕ) : List (List ℕ) :=
  if bytes = [] then []
  else bytes.take 4096 :: readChunks (bytes.drop 4096)
termination_by bytes.length
decreasing_by
  simp [List.length_drop]
  rename_i h
  have : 0 < bytes.length := List.length_pos.mpr h
  omega

/-- Handler `GET /api/downloads` (src/app.py lines 400-416): list files as
(name, size, mtime), sort by mtime newest first (Python's stable sort),
return the first 20. -/
def list_downloads (d : Dir) : List (List Char × ℕ × ℚ) :=
  let files := d.map (fun p => (p.1, p.2.bytes.length, p.2.mtime))
  let sorted := files.mergeSort (fun a b => decide (b.2.2 ≤ a.2.2))
  sorted.take 20

/-- Handler `GET /api/download-file/<filename>` (src/app.py lines 341-358): decode
the name with `urllib.parse.unquote`, 404 when absent, otherwise stream the
file in 4096-byte chunks.  Result: `error status` or `ok chunks`. -/
def download_file (d : Dir) (filename : List Char) : Except ℕ (List (List ℕ)) :=
  let decoded := unquote filename
  match dirFind d decoded with
  | none => Except.error 404
  | some f => Except.ok (readChunks f.bytes)

/-- Handler `DELETE /api/delete-file/<filename>` (src/app.py lines 437-452), non-
OPTIONS path: remove the file when present (no decoding here), else 404.
Returns (status, new directory). -/
def delete_file (d : Dir) (filename : List Char) : ℕ × Dir :=
  match dirFind d filename with
  | some _ => (200, d.filter (fun p => ¬ p.1 = filename))
  | none => (404, d)

/-! ## yt-dlp download options (src/app.py lines 226-249)

Only the fields the handler itself sets are modelled; the anti-bot bundle
from `get_ydl_options` is opaque configuration with no logic.  Subtitle
fields are absent from the base options dict and only added in the video
branch when `include_captions` is true. -/

structure YdlOpts where
  format : List Char
  outtmplAudio : Bool
  writesubtitles : Bool
  writeautomaticsub : Bool
  subtitleslangs : Option (List (List Char))
  subtitlesformat : Option (List Char)
  deriving DecidableEq

/-- Base options: no format forced, default output template, no subtitle
keys (src/utils.py `get_ydl_options`). -/
def baseYdlOpts : YdlOpts :=
  { format := []
    outtmplAudio := false
    writesubtitles := false
    writeautomaticsub := false
    subtitleslangs := none
    subtitlesformat := none }

/-- The `if download_type == 'audio': ... else: ...` block of
`download_video` (src/app.py lines 228-249). -/
def buildDownloadOpts (downloadType : List Char) (quality : Option (List Char))
    (includeCaptions : Bool) (captionLanguage : List Char) : YdlOpts :=
  if downloadType = "audio".toList then
    let o1 := match quality with
      | some q => { baseYdlOpts with format := q }
      | none => { baseYdlOpts with format := "bestaudio/best".toList }
    { o1 with outtmplAudio := true }
  else
    let o1 := match quality with
      | some q => { baseYdlOpts with format := q ++ "+bestaudio/best".toList }
      | none =>
        { baseYdlOpts with
            format := "best[height<=2160]/bestvideo[height<=2160]+bestaudio/best".toList }
    if includeCaptions then
      { o1 with
          writesubtitles := true
          writeautomaticsub := true
          subtitleslangs := some [captionLanguage]
          subtitlesformat := some "srt".toList }
    else o1

/-! ## HTTP handler pipelines

The rate-limit decorator wraps each handler, so the limiter runs before the
handler body — in particular before the `request.method == 'OPTIONS'` check.
`body = none` models a request whose JSON body is absent (`get_json()`
returns `None` and `None.get('url')` raises, caught by the blanket
`except` → 500); `some none` a JSON body without `url`; `some (some u)` a
body with `url: u` (the empty string is falsy in Python, hence 400). -/

/-- Relevant part of the metadata returned by `ydl.extract_info`. -/
structure ExtractInfo where
  title : List Char
  description : List Char

/-- Observable outcome of `POST /api/video-info`. -/
structure InfoResult where
  status : ℕ
  emptyBody : Bool
  window : List ℚ
  extractorInvoked : Bool
  description : Option (List Char)
  deriving DecidableEq

/-- Handler `POST /api/video-info` (src/app.py lines 117-202): `@rate_limit(5)`
then the handler body. `extraction` is the net outcome of the retried
`ydl.extract_info` call. -/
def get_video_info (w : List ℚ) (now : ℚ) (isOptions : Bool)
    (body : Option (Option (List Char))) (extraction : Except (List Char) ExtractInfo) :
    InfoResult :=
  let r := rateLimitCheck 5 now w
  if r.1 = false then
    ⟨429, false, r.2, false, none⟩
  else if isOptions then
    ⟨200, true, r.2, false, none⟩
  else
    match body with
    | none => ⟨500, false, r.2, false, none⟩
    | some none => ⟨400, false, r.2, false, none⟩
    | some (some url) =>
      if url = [] then ⟨400, false, r.2, false, none⟩
      else
        match extraction with
        | Except.error _ => ⟨500, false, r.2, true, none⟩
        | Except.ok info => ⟨200, false, r.2, true, some (truncateDescription info.description)⟩

/-- Fields of a `POST /api/download` request body
(src/app.py lines 213-218). -/
structure DownloadBody where
  url : Option (List Char)
  dtype : List Char
  quality : Option (List Char)
  includeCaptions : Bool
  captionLanguage : List Char

/-- The expression `"".join(c for c in title if c.isalnum() or c in (' ', '-', '_')).rstrip()`
(src/app.py line 260); alphanumeric is modelled on ASCII. -/
def safeTitle (title : List Char) : List Char :=
  let kept := title.filter (fun c =>
    (48 ≤ c.toNat ∧ c.toNat ≤ 57) ∨ (65 ≤ c.toNat ∧ c.toNat ≤ 90) ∨
    (97 ≤ c.toNat ∧ c.toNat ≤ 122) ∨ c = Char.ofNat 32 ∨
    c = Char.ofNat 45 ∨ c = Char.ofNat 95)
  (kept.reverse.dropWhile (fun c => c = Char.ofNat 32)).reverse

/-- ASCII lower-casing, for the `safe_title.lower() in file.lower()` test. -/
def asciiLower (s : List Char) : List Char :=
  s.map (fun c => if 65 ≤ c.toNat ∧ c.toNat ≤ 90 then Char.ofNat (c.toNat + 32) else c)

/-- Locate the downloaded file in the temp directory (src/app.py lines
265-276): files whose lowercased name contains the lowercased safe title;
fallback: the file with the greatest creation time. -/
def locateDownloadedFile (title : List Char) (tempFiles : List (List Char × ℚ)) :
    Option (List Char) :=
  let st := safeTitle title
  let matching := tempFiles.filter (fun f => decide (asciiLower st <:+: asciiLower f.1))
  match matching with
  | m :: _ => some m.1
  | [] =>
    match tempFiles.foldl
        (fun acc f => match acc with
          | none => some f
          | some g => if g.2 < f.2 then some f else some g) none with
    | some best => some best.1
    | none => none

/-- Outcome of the extraction/download phase inside the temp directory:
either `ydl.extract_info` / `ydl.download` raises, or the download
completes leaving `tempFiles` (name, ctime) in the temp directory. -/
inductive DownloadRun where
  | raises
  | completes (info : ExtractInfo) (tempFiles : List (List Char × ℚ))

/-- Observable outcome of `POST /api/download`. -/
structure DownloadResult where
  status : ℕ
  emptyBody : Bool
  window : List ℚ
  extractorInvoked : Bool
  tempDirCreated : Bool
  tempDirRemoved : Bool
  streamedFile : Option (List Char)
  deriving DecidableEq

/-- Handler `POST /api/download` (src/app.py lines 204-339): `@rate_limit(3)`, the
OPTIONS check, URL validation, `tempfile.mkdtemp()`, extraction + download,
file location, then streaming whose generator removes the temp directory in
its `finally`.  The temp directory is removed only on the streaming path;
the `return ... 500` at line 279 and the blanket `except` at line 338 leave
it behind. -/
def download_video (w : List ℚ) (now : ℚ) (isOptions : Bool)
    (body : Option DownloadBody) (run : DownloadRun) : DownloadResult :=
  let r := rateLimitCheck 3 now w
  if r.1 = false then
    ⟨429, false, r.2, false, false, false, none⟩
  else if isOptions then
    ⟨200, true, r.2, false, false, false, none⟩
  else
    match body with
    | none => ⟨500, false, r.2, false, false, false, none⟩
    | some b =>
      match b.url with
      | none => ⟨400, false, r.2, false, false, false, none⟩
      | some url =>
        if url = [] then ⟨400, false, r.2, false, false, false, none⟩
        else
          -- temp_dir = tempfile.mkdtemp() (line 253); options built above it
          match run with
          | DownloadRun.raises => ⟨500, false, r.2, true, true, false, none⟩
          | DownloadRun.completes info tempFiles =>
            match locateDownloadedFile info.title tempFiles with
            | none => ⟨500, false, r.2, true, true, false, none⟩
            | some f => ⟨200, false, r.2, true, true, true, some f⟩

/-- The OPTIONS path of `POST /api/clear-downloads` and
`DELETE /api/delete-file/<filename>` (src/app.py lines 420-425, 437-442):
these handlers are not rate limited, so a preflight always gets an empty
200. Returns (status, empty body?). -/
def preflightUnlimited (isOptions : Bool) (handlerStatus : ℕ) : ℕ × Bool :=
  if isOptions then (200, true) else (handlerStatus, false)

/-! Concrete operations used to exercise the retry wrapper. -/

/-- Fails on its first two invocations, then succeeds. -/
def opSucceedsThird : ℕ → Except ℕ ℕ :=
  fun i => if i < 2 then Except.error 0 else Except.ok 42

/-- Fails on every invocation, the i-th failure carrying error `i`. -/
def opAlwaysFails : ℕ → Except ℕ ℕ := fun i => Except.error i

/-- A directory whose single file has a percent sequence in its name. -/
def dirPercent : Dir := [("a%62c".toList, ⟨[1, 2, 3], 0⟩)]

/-- A directory with one plainly named file. -/
def dirPlain : Dir := [("clip.mp4".toList, ⟨[7, 8, 9], 5⟩)]

/-! ## Rate limiter lemmas -/

theorem pruneDeque_eq_self {m : ℚ} {w : List ℚ} (h : ∀ x ∈ w, m ≤ x) :
    pruneDeque m w = w := by
  cases w with
  | nil => rfl
  | cons t rest =>
    have ht : m ≤ t := h t (List.mem_cons_self t rest)
    simp [pruneDeque, not_lt.mpr ht]

theorem pruneDeque_eq_nil_of_old {m : ℚ} {w : List ℚ} (h : ∀ x ∈ w, x < m) :
    pruneDeque m w = [] := by
  induction w with
  | nil => rfl
  | cons t rest ih =>
    have ht : t < m := h t (List.mem_cons_self t rest)
    simp only [pruneDeque, if_pos ht]
    exact ih (fun x hx => h x (List.mem_cons_of_mem t hx))

theorem pruneDeque_eq_filter {m : ℚ} {w : List ℚ} (h : w.Sorted (· ≤ ·)) :
    pruneDeque m w = w.filter (fun t => decide (m ≤ t)) := by
  induction w with
  | nil => rfl
  | cons t rest ih =>
    rw [List.sorted_cons] at h
    by_cases htm : t < m
    · rw [pruneDeque, if_pos htm, List.filter_cons]
      simp only [decide_eq_true_eq, not_le.mpr htm, if_false]
      exact ih h.2
    · push_neg at htm
      rw [pruneDeque, if_neg (not_lt.mpr htm), List.filter_cons]
      simp only [decide_eq_true_eq, htm, if_true]
      have : rest.filter (fun t => decide (m ≤ t)) = rest :=
        List.filter_eq_self.mpr fun x hx => decide_eq_true (le_trans htm (h.1 x hx))
      rw [this]

theorem pruneDeque_suffix (m : ℚ) (w : List ℚ) : pruneDeque m w <:+ w := by
  induction w with
  | nil => exact List.suffix_refl _
  | cons t rest ih =>
    by_cases htm : t < m
    · rw [pruneDeque, if_pos htm]
      exact ih.trans (List.suffix_cons t rest)
    · rw [pruneDeque, if_neg htm]

theorem pruneDeque_sorted {m : ℚ} {w : List ℚ} (h : w.Sorted (· ≤ ·)) :
    (pruneDeque m w).Sorted (· ≤ ·) :=
  List.Pairwise.sublist (pruneDeque_suffix m w).sublist h

theorem pruneDeque_pruneDeque {m m' : ℚ} {w : List ℚ}
    (hw : w.Sorted (· ≤ ·)) (hmm : m ≤ m') :
    pruneDeque m' (pruneDeque m w) = pruneDeque m' w := by
  rw [pruneDeque_eq_filter (pruneDeque_sorted hw), pruneDeque_eq_filter hw,
    pruneDeque_eq_filter hw, List.filter_filter]
  apply List.filter_congr
  intro x _
  by_cases hx : m' ≤ x
  · simp [hx, le_trans hmm hx]
  · simp [hx]

theorem rateLimitCheck_spec (limit : ℕ) (now : ℚ) (w : List ℚ) :
    rateLimitCheck limit now w =
      if (pruneDeque (now - 60) w).length < limit
        then (true, pruneDeque (now - 60) w ++ [now])
        else (false, pruneDeque (now - 60) w) := by
  unfold rateLimitCheck
  by_cases hc : (pruneDeque (now - 60) w).length < limit
  · simp only [if_neg (by omega : ¬ limit ≤ (pruneDeque (now - 60) w).length),
      if_pos hc]
  · simp only [if_pos (by omega : limit ≤ (pruneDeque (now - 60) w).length),
      if_neg hc]

theorem processRequests_within_span (limit : ℕ) (a : ℚ) :
    ∀ (ts w : List ℚ), (∀ x ∈ w, a ≤ x) → (∀ t ∈ ts, a ≤ t ∧ t ≤ a + 60) →
      w.length + ts.length ≤ limit → processRequests limit ts w = w ++ ts := by
  intro ts
  induction ts with
  | nil => intro w _ _ _; simp [processRequests]
  | cons t ts ih =>
    intro w hw hts hlen
    have hta := hts t (List.mem_cons_self t ts)
    have hprune : pruneDeque (t - 60) w = w :=
      pruneDeque_eq_self (fun x hx => by have := hw x hx; linarith [hta.2])
    have hcnt : ¬ limit ≤ w.length := by
      simp only [List.length_cons] at hlen; omega
    have hadm : rateLimitCheck limit t w = (true, w ++ [t]) := by
      rw [rateLimitCheck]; simp only [hprune, if_neg hcnt]
    rw [processRequests, hadm]
    have h1 : ∀ x ∈ w ++ [t], a ≤ x := by
      intro x hx
      rcases List.mem_append.mp hx with h | h
      · exact hw x h
      · rw [List.mem_singleton.mp h]; exact hta.1
    have h2 : ∀ u ∈ ts, a ≤ u ∧ u ≤ a + 60 :=
      fun u hu => hts u (List.mem_cons_of_mem t hu)
    have h3 : (w ++ [t]).length + ts.length ≤ limit := by
      simp only [List.length_append, List.length_cons, List.length_nil] at hlen ⊢
      omega
    rw [ih (w ++ [t]) h1 h2 h3, List.append_assoc, List.singleton_append]

/-! ## Retry loop lemmas -/

theorem retryGo_ok {ε α : Type} (op : ℕ → Except ε α) (maxRetries k : ℕ) (v : α)
    (hk : k < maxRetries)
    (hfail : ∀ i, i < k → ∃ e, op i = Except.error e)
    (hok : op k = Except.ok v) :
    ∀ n attempt, k - attempt = n → attempt ≤ k →
      retryGo op maxRetries attempt = Except.ok v := by
  intro n
  induction n with
  | zero =>
    intro attempt hn hak
    have : attempt = k := by omega
    subst this
    rw [retryGo, if_pos hk, hok]
  | succ n ih =>
    intro attempt hn hak
    have hlt : attempt < k := by omega
    obtain ⟨e, he⟩ := hfail attempt hlt
    have h1 : attempt < maxRetries := lt_trans hlt hk
    have h2 : attempt ≠ maxRetries - 1 := by omega
    rw [retryGo, if_pos h1, he]
    simp only [if_neg h2]
    exact ih (attempt + 1) (by omega) (by omega)

theorem retryGo_fail {ε α : Type} (op : ℕ → Except ε α) (maxRetries : ℕ) (err : ℕ → ε)
    (hfail : ∀ i, i < maxRetries → op i = Except.error (err i)) :
    ∀ n attempt, maxRetries - attempt = n + 1 →
      retryGo op maxRetries attempt = Except.error (err (maxRetries - 1)) ∧
      retryCallsGo op maxRetries attempt = maxRetries - attempt := by
  intro n
  induction n with
  | zero =>
    intro attempt hn
    have h1 : attempt < maxRetries := by omega
    have h2 : attempt = maxRetries - 1 := by omega
    constructor
    · rw [retryGo, if_pos h1, hfail attempt h1]
      simp [h2]
    · rw [retryCallsGo, if_pos h1, hfail attempt h1]
      simp [h2]
      omega
  | succ n ih =>
    intro attempt hn
    have h1 : attempt < maxRetries := by omega
    have h2 : attempt ≠ maxRetries - 1 := by omega
    have hrec := ih (attempt + 1) (by omega)
    constructor
    · rw [retryGo, if_pos h1, hfail attempt h1]
      simp only [if_neg h2]
      exact hrec.1
    · rw [retryCallsGo, if_pos h1, hfail attempt h1]
      simp only [if_neg h2]
      rw [hrec.2]
      omega

/-! ## Streaming and directory lemmas -/

theorem readChunks_flatten (b : List ℕ) : (readChunks b).flatten = b := by
  by_cases h : b = []
  · subst h
    rw [readChunks]
    simp
  · rw [readChunks, if_neg h, List.flatten_cons, readChunks_flatten (b.drop 4096)]
    exact List.take_append_drop 4096 b
termination_by b.length
decreasing_by
  simp [List.length_drop]
  have : 0 < b.length := List.length_pos.mpr h
  omega

theorem mem_list_downloads {d : Dir} {n : List Char}
    (h : n ∈ (list_downloads d).map Prod.fst) : (dirFind d n).isSome := by
  unfold list_downloads at h
  obtain ⟨entry, hmem, hfst⟩ := List.mem_map.mp h
  have h2 := List.mem_of_mem_take hmem
  have h3 : entry ∈ d.map (fun p => (p.1, p.2.bytes.length, p.2.mtime)) :=
    (List.mergeSort_perm _ _).mem_iff.mp h2
  obtain ⟨p, hp, hpe⟩ := List.mem_map.mp h3
  have hpn : p.1 = n := by
    have : entry.1 = p.1 := by rw [← hpe]
    rw [← hfst, this]
  rw [dirFind]
  have hfs : (List.find? (fun q => decide (q.1 = n)) d).isSome :=
    List.find?_isSome.mpr ⟨p, hp, by simp [hpn]⟩
  obtain ⟨q, hq⟩ := Option.isSome_iff_exists.mp hfs
  rw [hq]
  rfl

/-! ## Claim theorems -/

/-- C2: for `retry_with_backoff` with `max_retries ≥ 1`: an operation failing
its first `k < max_retries` invocations and succeeding on invocation `k+1`
makes the wrapper return that success value; an operation failing all
`max_retries` invocations makes the wrapper propagate the final invocation's
error unchanged, with the operation invoked exactly `max_retries` times. -/
theorem C2_retry_semantics {ε α : Type} (op : ℕ → Except ε α) (maxRetries : ℕ)
    (h1 : 1 ≤ maxRetries) :
    (∀ k v, k < maxRetries → (∀ i, i < k → ∃ e, op i = Except.error e) →
      op k = Except.ok v → retry_with_backoff op maxRetries = Except.ok v) ∧
    (∀ err : ℕ → ε, (∀ i, i < maxRetries → op i = Except.error (err i)) →
      retry_with_backoff op maxRetries = Except.error (err (maxRetries - 1)) ∧
      retryCalls op maxRetries = maxRetries) := by
  constructor
  · intro k v hk hfail hok
    exact retryGo_ok op maxRetries k v hk hfail hok k 0 (by omega) (by omega)
  · intro err hfail
    have h := retryGo_fail op maxRetries err hfail (maxRetries - 1) 0 (by omega)
    refine ⟨h.1, ?_⟩
    rw [retryCalls, h.2]
    omega

/-- Witness for C2: three attempts with the first two failing return the
third attempt's value; three failing attempts propagate the third error and
make exactly three invocations. -/
theorem C2_retry_semantics_witness :
    retry_with_backoff opSucceedsThird 3 = Except.ok 42 ∧
    retry_with_backoff opAlwaysFails 3 = Except.error 2 ∧
    retryCalls opAlwaysFails 3 = 3 := by
  refine ⟨?_, ?_, ?_⟩
  · exact (C2_retry_semantics opSucceedsThird 3 (by norm_num)).1 2 42 (by norm_num)
      (fun i hi => ⟨0, by simp [opSucceedsThird, hi]⟩) (by simp [opSucceedsThird])
  · exact ((C2_retry_semantics opAlwaysFails 3 (by norm_num)).2 (fun i => i)
      (fun i _ => rfl)).1
  · exact ((C2_retry_semantics opAlwaysFails 3 (by norm_num)).2 (fun i => i)
      (fun i _ => rfl)).2

/-- C7 counterexample: with `base_delay = 1/2` the delay before the second
retry can be smaller than the delay before the first, for jitter values
0.99 and 0 (both in [0,1)), so the delay is not non-decreasing for all
jitter values at every `base_delay`. -/
theorem C7_delay_decreasing_cex :
    (0:ℚ) ≤ 99/100 ∧ (99/100:ℚ) < 1 ∧ (0:ℚ) ≤ 0 ∧ (0:ℚ) < 1 ∧
    backoffDelay (1/2) (0 + 1) 0 < backoffDelay (1/2) 0 (99/100) := by
  norm_num [backoffDelay]

/-- C7 (amended): whenever `base_delay ≥ 1` — which covers every use in this
repository (default 1, call site 2) — the delay `base_delay * 2^attempt +
jitter` is non-decreasing from each attempt to the next, for all jitter
values in [0,1). -/
theorem C7_delay_monotone (base : ℚ) (attempt : ℕ) (j j' : ℚ)
    (hb : 1 ≤ base) (hj0 : 0 ≤ j) (hj1 : j < 1) (hj0' : 0 ≤ j') (hj1' : j' < 1) :
    backoffDelay base attempt j ≤ backoffDelay base (attempt + 1) j' := by
  unfold backoffDelay
  have h2 : (1:ℚ) ≤ 2 ^ attempt := one_le_pow₀ (by norm_num)
  have hb2 : (1:ℚ) ≤ base * 2 ^ attempt := by nlinarith
  rw [pow_succ]
  nlinarith

/-- Witness for C7 (amended): at `base_delay = 2` (the value used at
src/app.py line 137) the delay grows from attempt 0 with jitter 0.99 to
attempt 1 with jitter 0. -/
theorem C7_delay_monotone_witness :
    backoffDelay 2 0 (99/100) ≤ backoffDelay 2 (0 + 1) 0 :=
  C7_delay_monotone 2 0 (99/100) 0 (by norm_num) (by norm_num) (by norm_num)
    (by norm_num) (by norm_num)

/-- C9: when the rate limiter rejects a request, the stored window is left
as the pruned window — no timestamp is appended — and any later request
observes exactly the state it would have observed had the rejected request
never happened: a rejected request never consumes future capacity. -/
theorem C9_rejection_consumes_nothing (limit : ℕ) (now later : ℚ) (w : List ℚ)
    (hsorted : w.Sorted (· ≤ ·)) (hle : now ≤ later)
    (hrej : (rateLimitCheck limit now w).1 = false) :
    (rateLimitCheck limit now w).2 = pruneDeque (now - 60) w ∧
    rateLimitCheck limit later (rateLimitCheck limit now w).2 =
      rateLimitCheck limit later w := by
  have hsnd : (rateLimitCheck limit now w).2 = pruneDeque (now - 60) w := by
    rw [rateLimitCheck] at hrej ⊢
    by_cases hc : limit ≤ (pruneDeque (now - 60) w).length
    · simp [hc]
    · simp [hc] at hrej
  refine ⟨hsnd, ?_⟩
  rw [hsnd, rateLimitCheck, rateLimitCheck,
    pruneDeque_pruneDeque hsorted (by linarith : now - 60 ≤ later - 60)]

/-- Witness for C9: a client at the limit is rejected at time 10 and the
window and the fate of a request at time 20 are unaffected. -/
theorem C9_rejection_consumes_nothing_witness :
    (rateLimitCheck 1 10 [0]).2 = pruneDeque (10 - 60) [0] ∧
    rateLimitCheck 1 20 (rateLimitCheck 1 10 [0]).2 = rateLimitCheck 1 20 [0] :=
  C9_rejection_consumes_nothing 1 10 20 [0] (List.sorted_singleton 0)
    (by norm_num) (by norm_num [rateLimitCheck, pruneDeque])

/-- C10: for an `'audio'` download, `include_captions` and
`caption_language` are ignored: the options built for the download are
independent of both fields and carry no subtitle-related keys
(`writesubtitles`, `writeautomaticsub`, `subtitleslangs`,
`subtitlesformat`), even when `include_captions` is true. -/
theorem C10_audio_ignores_captions (quality : Option (List Char))
    (ic ic' : Bool) (cl cl' : List Char) :
    buildDownloadOpts "audio".toList quality ic cl
      = buildDownloadOpts "audio".toList quality ic' cl' ∧
    (buildDownloadOpts "audio".toList quality ic cl).writesubtitles = false ∧
    (buildDownloadOpts "audio".toList quality ic cl).writeautomaticsub = false ∧
    (buildDownloadOpts "audio".toList quality ic cl).subtitleslangs = none ∧
    (buildDownloadOpts "audio".toList quality ic cl).subtitlesformat = none := by
  cases quality <;> simp [buildDownloadOpts, baseYdlOpts]

/-- C3: on each call the limiter drops exactly the timestamps older than
`now - 60` (on the sorted windows it maintains), admits iff fewer than
`limit` remain, appends `now` exactly when admitted, answers 429 when
rejecting; consequently `limit` requests within a 60-second span are all
admitted and the (limit+1)-th is rejected, and once 60 seconds elapse past
all stored requests capacity is restored. -/
theorem C3_rate_limiter (limit : ℕ) (now tlast : ℚ)
    (w wOld wFull ts : List ℚ)
    (isOpt : Bool) (body : Option (Option (List Char)))
    (ext : Except (List Char) ExtractInfo)
    (hsorted : w.Sorted (· ≤ ·))
    (hts : ∀ t ∈ ts, tlast - 60 ≤ t ∧ t ≤ tlast)
    (hlen : ts.length = limit)
    (hold : ∀ x ∈ wOld, x < now - 60)
    (hpos : 1 ≤ limit)
    (hrej : (rateLimitCheck 5 now wFull).1 = false) :
    (pruneDeque (now - 60) w = w.filter (fun t => decide (now - 60 ≤ t)) ∧
      ((rateLimitCheck limit now w).1 = true ↔
        (pruneDeque (now - 60) w).length < limit) ∧
      (rateLimitCheck limit now w).2 =
        (if (pruneDeque (now - 60) w).length < limit
          then pruneDeque (now - 60) w ++ [now] else pruneDeque (now - 60) w)) ∧
    (get_video_info wFull now isOpt body ext).status = 429 ∧
    (processRequests limit ts [] = ts ∧
      (rateLimitCheck limit tlast (processRequests limit ts [])).1 = false) ∧
    (rateLimitCheck limit now wOld).1 = true := by
  have hproc : processRequests limit ts [] = ts := by
    have := processRequests_within_span limit (tlast - 60) ts []
      (by simp)
      (fun t ht => ⟨(hts t ht).1, by have := (hts t ht).2; linarith⟩)
      (by simp [hlen])
    simpa using this
  refine ⟨⟨pruneDeque_eq_filter hsorted, ?_, ?_⟩, ?_, ⟨hproc, ?_⟩, ?_⟩
  · rw [rateLimitCheck_spec]
    by_cases hc : (pruneDeque (now - 60) w).length < limit <;> simp [hc]
  · rw [rateLimitCheck_spec]
    by_cases hc : (pruneDeque (now - 60) w).length < limit <;> simp [hc]
  · simp [get_video_info, hrej]
  · rw [hproc, rateLimitCheck_spec, pruneDeque_eq_self (fun t ht => (hts t ht).1)]
    simp [hlen]
  · rw [rateLimitCheck_spec, pruneDeque_eq_nil_of_old hold]
    have h0 : 0 < limit := hpos
    simp [h0]

/-- Witness for C3: limit 2, a sorted window, a stale window, a full
window, and two requests at times 50 and 60 followed by one at 70. -/
theorem C3_rate_limiter_witness :
    (pruneDeque (100 - 60) [41, 55]
        = List.filter (fun t => decide (100 - 60 ≤ t)) [41, 55] ∧
      ((rateLimitCheck 2 100 [41, 55]).1 = true ↔
        (pruneDeque (100 - 60) [41, 55]).length < 2) ∧
      (rateLimitCheck 2 100 [41, 55]).2 =
        (if (pruneDeque (100 - 60) [41, 55]).length < 2
          then pruneDeque (100 - 60) [41, 55] ++ [100]
          else pruneDeque (100 - 60) [41, 55])) ∧
    (get_video_info [90, 90, 90, 90, 90] 100 false none
        (Except.error [])).status = 429 ∧
    (processRequests 2 [50, 60] [] = [50, 60] ∧
      (rateLimitCheck 2 70 (processRequests 2 [50, 60] [])).1 = false) ∧
    (rateLimitCheck 2 100 [30, 35]).1 = true := by
  refine C3_rate_limiter 2 100 70 [41, 55] [30, 35] [90, 90, 90, 90, 90]
    [50, 60] false none (Except.error []) ?_ ?_ ?_ ?_ ?_ ?_
  · norm_num [List.sorted_cons]
  · intro t ht
    simp only [List.mem_cons, List.not_mem_nil, or_false] at ht
    rcases ht with h | h <;> subst h <;> norm_num
  · rfl
  · intro x hx
    simp only [List.mem_cons, List.not_mem_nil, or_false] at hx
    rcases hx with h | h <;> subst h <;> norm_num
  · norm_num
  · norm_num [rateLimitCheck, pruneDeque]

/-- C5 counterexample: a 501-character description is returned as its first
500 characters followed by `'...'` — 503 characters, so the response
description is not at most 500 characters long. -/
theorem C5_description_cex :
    500 < (List.replicate 501 (Char.ofNat 97)).length ∧
    (truncateDescription (List.replicate 501 (Char.ofNat 97))).length = 503 ∧
    ¬ (truncateDescription (List.replicate 501 (Char.ofNat 97))).length ≤ 500 := by
  have hlen : (List.replicate 501 (Char.ofNat 97)).length = 501 :=
    List.length_replicate 501 _
  have h5 : 500 < (List.replicate 501 (Char.ofNat 97)).length := by
    rw [hlen]; norm_num
  have h503 : (truncateDescription (List.replicate 501 (Char.ofNat 97))).length
      = 503 := by
    rw [truncateDescription, if_pos h5, List.length_append, List.length_take, hlen]
    rfl
  exact ⟨h5, h503, by rw [h503]; norm_num⟩

/-- C5 (amended): a successful `/api/video-info` response carries the
extracted description unchanged when it is at most 500 characters;
otherwise it carries the first 500 characters followed by `'...'`, i.e.
503 characters (not 500). -/
theorem C5_description_truncated (w : List ℚ) (now : ℚ) (url : List Char)
    (info : ExtractInfo)
    (hadm : (rateLimitCheck 5 now w).1 = true) (hurl : url ≠ []) :
    (get_video_info w now false (some (some url)) (Except.ok info)).description
      = some (truncateDescription info.description) ∧
    (info.description.length ≤ 500 →
      truncateDescription info.description = info.description) ∧
    (500 < info.description.length →
      (truncateDescription info.description).length = 503 ∧
      (truncateDescription info.description).take 500
        = info.description.take 500) := by
  refine ⟨?_, ?_, ?_⟩
  · simp [get_video_info, hadm, hurl]
  · intro h
    simp [truncateDescription, not_lt.mpr h]
  · intro h
    constructor
    · simp [truncateDescription, h]
      omega
    · have hl : (info.description.take 500).length = 500 := by
        simp [List.length_take]
        omega
      rw [truncateDescription, if_pos h, List.take_append_eq_append_take, hl]
      simp

/-- Witness for C5 (amended): an admitted request whose video has a
501-character description. -/
theorem C5_description_truncated_witness :
    (get_video_info [] 0 false (some (some "u".toList))
        (Except.ok ⟨"t".toList, List.replicate 501 (Char.ofNat 97)⟩)).description
      = some (truncateDescription (List.replicate 501 (Char.ofNat 97))) ∧
    (truncateDescription (List.replicate 501 (Char.ofNat 97))).length = 503 ∧
    (truncateDescription (List.replicate 501 (Char.ofNat 97))).take 500
      = (List.replicate 501 (Char.ofNat 97)).take 500 := by
  have hlen : 500 < (List.replicate 501 (Char.ofNat 97)).length := by
    rw [List.length_replicate]; norm_num
  have h := C5_description_truncated [] 0 "u".toList
    ⟨"t".toList, List.replicate 501 (Char.ofNat 97)⟩
    (by norm_num [rateLimitCheck, pruneDeque]) (by simp)
  exact ⟨h.1, (h.2.2 hlen).1, (h.2.2 hlen).2⟩

/-- C4 counterexample: a client that already has five timestamps within the
last 60 seconds receives 429 — not an empty 200 — for an OPTIONS preflight
to `/api/video-info`, because the rate-limit decorator runs before the
handler's preflight check. -/
theorem C4_preflight_cex :
    (get_video_info [0, 0, 0, 0, 0] 1 true none (Except.error [])).status = 429 ∧
    (get_video_info [0, 0, 0, 0, 0] 1 true none (Except.error [])).emptyBody
      = false := by
  norm_num [get_video_info, rateLimitCheck, pruneDeque]

/-- C4 (amended): an OPTIONS preflight receives an empty 200 from
`/api/video-info` and `/api/download` exactly when the rate limiter admits
the request; the handlers without a rate limit (`/api/clear-downloads`,
`/api/delete-file`) answer every preflight with an empty 200. -/
theorem C4_preflight_when_admitted (w wd : List ℚ) (now : ℚ)
    (body : Option (Option (List Char))) (ext : Except (List Char) ExtractInfo)
    (dbody : Option DownloadBody) (run : DownloadRun) (s : ℕ)
    (h5 : (rateLimitCheck 5 now w).1 = true)
    (h3 : (rateLimitCheck 3 now wd).1 = true) :
    (get_video_info w now true body ext).status = 200 ∧
    (get_video_info w now true body ext).emptyBody = true ∧
    (download_video wd now true dbody run).status = 200 ∧
    (download_video wd now true dbody run).emptyBody = true ∧
    preflightUnlimited true s = (200, true) := by
  refine ⟨?_, ?_, ?_, ?_, rfl⟩ <;>
    simp [get_video_info, download_video, h5, h3]

/-- Witness for C4 (amended): a fresh client's preflights succeed. -/
theorem C4_preflight_when_admitted_witness :
    (get_video_info [] 0 true none (Except.error [])).status = 200 ∧
    (get_video_info [] 0 true none (Except.error [])).emptyBody = true ∧
    (download_video [] 0 true none DownloadRun.raises).status = 200 ∧
    (download_video [] 0 true none DownloadRun.raises).emptyBody = true ∧
    preflightUnlimited true 500 = (200, true) :=
  C4_preflight_when_admitted [] [] 0 none (Except.error []) none
    DownloadRun.raises 500
    (by norm_num [rateLimitCheck, pruneDeque])
    (by norm_num [rateLimitCheck, pruneDeque])

/-- C8: an admitted POST to `/api/video-info` or `/api/download` whose JSON
body lacks a `url` value is answered 400 and the extraction library is
never invoked for that request (for `/api/download`, no temp directory is
created either). -/
theorem C8_missing_url_gives_400 (w wd : List ℚ) (now : ℚ)
    (ext : Except (List Char) ExtractInfo) (run : DownloadRun) (b : DownloadBody)
    (h5 : (rateLimitCheck 5 now w).1 = true)
    (h3 : (rateLimitCheck 3 now wd).1 = true)
    (hb : b.url = none) :
    (get_video_info w now false (some none) ext).status = 400 ∧
    (get_video_info w now false (some none) ext).extractorInvoked = false ∧
    (download_video wd now false (some b) run).status = 400 ∧
    (download_video wd now false (some b) run).extractorInvoked = false ∧
    (download_video wd now false (some b) run).tempDirCreated = false := by
  refine ⟨?_, ?_, ?_, ?_, ?_⟩ <;>
    simp [get_video_info, download_video, h5, h3, hb]

/-- Witness for C8: a fresh client posting a JSON body with no `url`. -/
theorem C8_missing_url_gives_400_witness :
    (get_video_info [] 0 false (some none) (Except.error [])).status = 400 ∧
    ((get_video_info [] 0 false (some none) (Except.error []))
      |>.extractorInvoked) = false ∧
    (download_video [] 0 false
      (some ⟨none, "video".toList, none, false, "en".toList⟩)
      DownloadRun.raises).status = 400 ∧
    (download_video [] 0 false
      (some ⟨none, "video".toList, none, false, "en".toList⟩)
      DownloadRun.raises).extractorInvoked = false ∧
    (download_video [] 0 false
      (some ⟨none, "video".toList, none, false, "en".toList⟩)
      DownloadRun.raises).tempDirCreated = false :=
  C8_missing_url_gives_400 [] [] 0 (Except.error []) DownloadRun.raises
    ⟨none, "video".toList, none, false, "en".toList⟩
    (by norm_num [rateLimitCheck, pruneDeque])
    (by norm_num [rateLimitCheck, pruneDeque]) rfl

/-- C6 counterexample: the file named `a%62c` is present and listed by
`/api/downloads`, but `GET /api/download-file/a%62c` URL-decodes the listed
name a second time to `abc` and answers 404 instead of streaming the
file's bytes. -/
theorem C6_round_trip_cex :
    "a%62c".toList ∈ (list_downloads dirPercent).map Prod.fst ∧
    download_file dirPercent ("a%62c".toList) = Except.error 404 := by
  constructor
  · have hms : List.mergeSort [("a%62c".toList, 3, (0:ℚ))]
        (fun a b => decide (b.2.2 ≤ a.2.2)) = [("a%62c".toList, 3, (0:ℚ))] :=
      List.perm_singleton.mp (List.mergeSort_perm _ _)
    simp only [list_downloads, dirPercent, List.map_cons, List.map_nil,
      List.length_cons, List.length_nil]
    rw [hms]
    simp
  · rfl

/-- C6 (amended): every file listed by `/api/downloads` is present in the
shared directory; when its listed name is unchanged by URL-decoding,
`/api/download-file/<name>` streams exactly its bytes (the concatenation of
the 4096-byte chunks equals the file) and `/api/delete-file/<name>` removes
it.  (A listed name altered by URL-decoding can miss: counterexample.) -/
theorem C6_round_trip (d : Dir) (n : List Char)
    (hlisted : n ∈ (list_downloads d).map Prod.fst)
    (hplain : unquote n = n) :
    (∃ f, dirFind d n = some f ∧
      download_file d n = Except.ok (readChunks f.bytes) ∧
      (readChunks f.bytes).flatten = f.bytes) ∧
    (delete_file d n).1 = 200 ∧
    n ∉ ((delete_file d n).2).map Prod.fst := by
  have hsome := mem_list_downloads hlisted
  obtain ⟨f, hf⟩ := Option.isSome_iff_exists.mp hsome
  refine ⟨⟨f, hf, ?_, readChunks_flatten f.bytes⟩, ?_, ?_⟩
  · rw [download_file, hplain, hf]
  · simp only [delete_file, hf]
  · simp only [delete_file, hf, List.mem_map, List.mem_filter]
    rintro ⟨p, ⟨hp, hpn⟩, hfst⟩
    simp [hfst] at hpn

/-- Witness for C6 (amended): a plainly named listed file round-trips. -/
theorem C6_round_trip_witness :
    (∃ f, dirFind dirPlain ("clip.mp4".toList) = some f ∧
      download_file dirPlain ("clip.mp4".toList)
        = Except.ok (readChunks f.bytes) ∧
      (readChunks f.bytes).flatten = f.bytes) ∧
    (delete_file dirPlain ("clip.mp4".toList)).1 = 200 ∧
    "clip.mp4".toList ∉ ((delete_file dirPlain ("clip.mp4".toList)).2).map
      Prod.fst := by
  refine C6_round_trip dirPlain ("clip.mp4".toList) ?_ (by decide)
  have hms : List.mergeSort [("clip.mp4".toList, 3, (5:ℚ))]
      (fun a b => decide (b.2.2 ≤ a.2.2)) = [("clip.mp4".toList, 3, (5:ℚ))] :=
    List.perm_singleton.mp (List.mergeSort_perm _ _)
  simp only [list_downloads, dirPlain, List.map_cons, List.map_nil,
    List.length_cons, List.length_nil]
  rw [hms]
  simp

/-- C1 evaluated at failing inputs: a `/api/download` request for which the
download raises, and one that completes leaving no file in the temp
directory, are both answered 500 with the temp directory created but never
removed — the `rmtree` only runs in the streaming generator's `finally`, so
on these paths the directory is left behind.  On the streaming path it is
removed. -/
theorem C1_temp_dir_leaked :
    (download_video [] 0 false
        (some ⟨some "u".toList, "video".toList, none, false, "en".toList⟩)
        (DownloadRun.completes ⟨"t".toList, "d".toList⟩ [])).status = 500 ∧
    (download_video [] 0 false
        (some ⟨some "u".toList, "video".toList, none, false, "en".toList⟩)
        (DownloadRun.completes ⟨"t".toList, "d".toList⟩ [])).tempDirCreated
      = true ∧
    (download_video [] 0 false
        (some ⟨some "u".toList, "video".toList, none, false, "en".toList⟩)
        (DownloadRun.completes ⟨"t".toList, "d".toList⟩ [])).tempDirRemoved
      = false ∧
    (download_video [] 0 false
        (some ⟨some "u".toList, "video".toList, none, false, "en".toList⟩)
        DownloadRun.raises).status = 500 ∧
    (download_video [] 0 false
        (some ⟨some "u".toList, "video".toList, none, false, "en".toList⟩)
        DownloadRun.raises).tempDirCreated = true ∧
    (download_video [] 0 false
        (some ⟨some "u".toList, "video".toList, none, false, "en".toList⟩)
        DownloadRun.raises).tempDirRemoved = false := by
  norm_num [download_video, rateLimitCheck, pruneDeque, locateDownloadedFile]

end YtDl
